import Mathlib

/-!
# Dinosaur museum ticket calculator

A shallow embedding of `src/03-ticket-calculator.js` and the properties of its
two exported functions, `calculateTicketPrice` and `purchaseTickets`.

Modelling conventions.

* A JavaScript object used as a dictionary is a list of key/value pairs in key
  order; `o[k]` is `List.lookup k o` (only own properties are modelled) and
  `Object.keys(o)` is the list of first components.
* The price table `ticketData` is one object in the source, whose key `extras`
  holds the dictionary of extras and whose other keys hold ticket types.  The
  two kinds of entries have different shapes, so the table is a record with a
  field for each kind.
* Prices are whole numbers of cents.  A JavaScript number is therefore either a
  natural number or `NaN` (the result of adding `undefined`).
* A call that throws a `TypeError` (a property read on `undefined`) returns
  `none`.
-/

set_option maxRecDepth 8000

namespace TicketCalculator

/-! ## Values -/

/-- The numbers this program computes with: a whole number of cents, or `NaN`. -/
inductive Num where
  | int (n : Nat)
  | nan
  deriving DecidableEq

namespace Num

/-- JavaScript `+` on two numbers. -/
def add : Num → Num → Num
  | int a, int b => int (a + b)
  | _, _ => nan

instance : Add Num := ⟨add⟩
instance : Zero Num := ⟨int 0⟩

/-- The number read from a property that may be `undefined`, as an operand of `+`
with a number: `undefined + x` is `NaN`. -/
def ofProperty : Option Nat → Num
  | some n => int n
  | none => nan

/-- The text of `x / 100` inside a template literal, for `x` a whole number of
cents: JavaScript prints the shortest decimal numeral of the quotient, so a
whole number of dollars has no decimal point, and otherwise the fraction has one
or two digits.  (Exact for amounts below `10 ^ 15` cents.) -/
def divHundredToString : Num → String
  | nan => "NaN"
  | int n =>
    if n % 100 = 0 then toString (n / 100)
    else if n % 10 = 0 then toString (n / 100) ++ "." ++ toString (n % 100 / 10)
    else if n % 100 < 10 then toString (n / 100) ++ ".0" ++ toString (n % 100)
    else toString (n / 100) ++ "." ++ toString (n % 100)

end Num

/-- The JavaScript values the functions of this file return. -/
inductive Value where
  | number (x : Num)
  | string (s : String)
  | bool (b : Bool)
  | undefined
  deriving DecidableEq

namespace Value

/-- JavaScript truthiness, as tested by `!v`. -/
def truthy : Value → Bool
  | number (Num.int n) => n != 0
  | number Num.nan => false
  | string s => s != ""
  | bool b => b
  | undefined => false

/-- The text of a value inside a template literal. -/
def toStr : Value → String
  | number (Num.int n) => toString n
  | number Num.nan => "NaN"
  | string s => s
  | bool true => "true"
  | bool false => "false"
  | undefined => "undefined"

end Value

/-! ## Data model -/

/-- An entry of the price table, for a ticket type or for an extra:
`{ description, priceInCents }`. -/
structure Entry where
  description : String
  priceInCents : List (String × Nat)
  deriving DecidableEq

/-- The price table `ticketData`: the entries under the ticket-type keys, and the
dictionary under the key `extras`. -/
structure TicketData where
  types : List (String × Entry)
  extras : List (String × Entry)
  deriving DecidableEq

/-- A ticket request `ticketInfo`. -/
structure TicketInfo where
  ticketType : String
  entrantType : String
  extras : List String
  deriving DecidableEq

/-- The keys `Object.keys(o)` of a dictionary. -/
def keys {β : Type} (o : List (String × β)) : List String := o.map Prod.fst

/-- The keys `Object.keys(ticketData)`: the ticket types and the key `extras`. -/
def TicketData.keys (ticketData : TicketData) : List String :=
  TicketCalculator.keys ticketData.types ++ ["extras"]

/-! ## Helper functions of the source -/

/-- The helper `checkTicketType`: membership of the ticket type in the fixed array
`["general", "membership"]`. -/
def checkTicketType (ticketInfo : TicketInfo) : Bool :=
  let validTicketTypes := ["general", "membership"]
  validTicketTypes.contains ticketInfo.ticketType

/-- The helper `checkEntrantType`: membership in the fixed array of entrant types (not called
by the exported functions). -/
def checkEntrantType (ticketInfo : TicketInfo) : Bool :=
  let validEntrantTypes := ["child", "adult", "senior"]
  validEntrantTypes.contains ticketInfo.entrantType

/-- The helper `checkEntrantTypeByKeys`: whether the entrant type is a key of
`tickets[ticketType].priceInCents`.  Throws when `tickets[ticketType]` is
`undefined`. -/
def checkEntrantTypeByKeys (tickets : TicketData) (ticketInfo : TicketInfo) : Option Bool :=
  match tickets.types.lookup ticketInfo.ticketType with
  | none => none
  | some entry => some ((keys entry.priceInCents).contains ticketInfo.entrantType)

/-- The callback `extra => !Object.keys(data.extras).includes(extra)`. -/
def isInvalidExtra (data : TicketData) (extra : String) : Bool :=
  !(keys data.extras).contains extra

/-- The array `extras.map(extra => data.extras[extra].description)`; the callback
throws at an extra for which `data.extras[extra]` is `undefined`. -/
def extraDescriptions (data : TicketData) : List String → Option (List String)
  | [] => some []
  | extra :: rest =>
    match data.extras.lookup extra with
    | none => none
    | some entry =>
      match extraDescriptions data rest with
      | none => none
      | some ds => some (entry.description :: ds)

/-- The helper `getExtraDescriptions`: `false` when some extra is not a key of `data.extras`,
otherwise the descriptions joined by `", "` between parentheses. -/
def getExtraDescriptions (data : TicketData) (ticketInfo : TicketInfo) : Option Value :=
  if ticketInfo.extras.any (isInvalidExtra data) then
    some (Value.bool false)
  else
    match extraDescriptions data ticketInfo.extras with
    | none => none
    | some extrasMap => some (Value.string ("(" ++ ", ".intercalate extrasMap ++ ")"))

/-- The helper `identifyInvalidExtra`: the first extra that is not a key of `data.extras`,
or `false` when there is none. -/
def identifyInvalidExtra (data : TicketData) (ticketInfo : TicketInfo) : Value :=
  if ticketInfo.extras.any (isInvalidExtra data) then
    match ticketInfo.extras.find? (isInvalidExtra data) with
    | some extra => Value.string extra
    | none => Value.undefined
  else
    Value.bool false

/-! ## `calculateTicketPrice` -/

/-- The loop `for (extra of ticketInfo.extras) extrasCost += ...`, started with the
running value of `extrasCost`.  Reading `priceInCents` of a missing extra throws;
a missing price is `undefined` and turns the sum into `NaN`. -/
def extrasCostLoop (ticketData : TicketData) (entrantType : String) :
    List String → Num → Option Num
  | [], extrasCost => some extrasCost
  | extra :: rest, extrasCost =>
    match ticketData.extras.lookup extra with
    | none => none
    | some entry =>
      extrasCostLoop ticketData entrantType rest
        (extrasCost + Num.ofProperty (entry.priceInCents.lookup entrantType))

/-- The value of `extrasCost` after the guarded loop
`if (ticketInfo.extras.length > 0) { for (extra of ticketInfo.extras) ... }`. -/
def extrasCost (ticketData : TicketData) (ticketInfo : TicketInfo) : Option Num :=
  if ticketInfo.extras.length > 0 then
    extrasCostLoop ticketData ticketInfo.entrantType ticketInfo.extras 0
  else
    some 0

/-- The function `calculateTicketPrice`: the three checks in order, then the sum of the base
price and the prices of the extras. -/
def calculateTicketPrice (ticketData : TicketData) (ticketInfo : TicketInfo) : Option Value :=
  let ticketPrice : Num := 0
  if !checkTicketType ticketInfo then
    some (Value.string ("Ticket type '" ++ ticketInfo.ticketType ++ "' cannot be found."))
  else
    match checkEntrantTypeByKeys ticketData ticketInfo with
    | none => none
    | some false =>
      some (Value.string ("Entrant type '" ++ ticketInfo.entrantType ++ "' cannot be found."))
    | some true =>
      match getExtraDescriptions ticketData ticketInfo with
      | none => none
      | some descriptions =>
        if !descriptions.truthy then
          some (Value.string ("Extra type '"
            ++ (identifyInvalidExtra ticketData ticketInfo).toStr ++ "' cannot be found."))
        else
          match ticketData.types.lookup ticketInfo.ticketType with
          | none => none
          | some entry =>
            let typeCost := Num.ofProperty (entry.priceInCents.lookup ticketInfo.entrantType)
            match extrasCost ticketData ticketInfo with
            | none => none
            | some extrasCost => some (Value.number (ticketPrice + (typeCost + extrasCost)))

/-! ## `purchaseTickets` -/

/-- The method `toUpperCase` on a string of one character.  The characters up to
U+00FF (Basic Latin and Latin-1 Supplement) are converted as JavaScript converts
them: the letters `a` to `z`, the Latin-1 letters U+00E0 to U+00FE other than the
division sign, the micro sign (to U+039C), U+00FF (to U+0178), and the sharp s
U+00DF, whose upper case is the two letters `SS`.  Characters above U+00FF are
left as they are. -/
def toUpperCase (c : Char) : List Char :=
  if c.toNat = 0xDF then ['S', 'S']
  else if c.toNat = 0xB5 then [Char.ofNat 0x39C]
  else if c.toNat = 0xFF then [Char.ofNat 0x178]
  else if 0xE0 ≤ c.toNat ∧ c.toNat ≤ 0xFE ∧ c.toNat ≠ 0xF7 then [Char.ofNat (c.toNat - 0x20)]
  else [c.toUpper]

/-- The method `toLowerCase` on one character of a string.  The characters up to
U+00FF are converted as JavaScript converts them: the letters `A` to `Z` and the
Latin-1 letters U+00C0 to U+00DE other than the multiplication sign.  Characters
above U+00FF are left as they are. -/
def toLowerCase (c : Char) : List Char :=
  if 0xC0 ≤ c.toNat ∧ c.toNat ≤ 0xDE ∧ c.toNat ≠ 0xD7 then [Char.ofNat (c.toNat + 0x20)]
  else [c.toLower]

/-- The expression `s[0].toUpperCase().concat(s.substring(1, s.length).toLowerCase())`.
Reading `s[0]` of the empty string gives `undefined`, on which `toUpperCase`
throws. -/
def capitalize (s : String) : Option String :=
  match s.data with
  | [] => none
  | c :: cs => some (String.mk (toUpperCase c ++ (cs.map toLowerCase).flatten))

/-- The first line of every receipt. -/
def receiptHeader : String := "Thank you for visiting the Dinosaur Museum!"

/-- The line of dashes that frames the purchase lines. -/
def receiptSeparator : String := "-------------------------------------------"

/-- The text appended to `receipt` for one purchase whose price is `currentPrice`:
a newline and the line of the purchase. -/
def receiptAppend (ticketData : TicketData) (purchase : TicketInfo) (currentPrice : Num) :
    Option String :=
  match capitalize purchase.entrantType with
  | none => none
  | some entrantCapitalized =>
    match ticketData.types.lookup purchase.ticketType with
    | none => none
    | some entry =>
      if purchase.extras.length > 0 then
        match getExtraDescriptions ticketData purchase with
        | none => none
        | some descriptions =>
          some ("\n" ++ entrantCapitalized ++ " " ++ entry.description ++ ": $"
            ++ currentPrice.divHundredToString ++ ".00 " ++ descriptions.toStr)
      else
        some ("\n" ++ entrantCapitalized ++ " " ++ entry.description ++ ": $"
          ++ currentPrice.divHundredToString ++ ".00")

/-- The `for` loop of `purchaseTickets` over the remaining purchases, with the
running `receipt` and `total`, followed by the final `return`.  A result of
`calculateTicketPrice` that is a string is returned at once; the other results
are numbers (the function returns nothing else, so the last case is never
taken). -/
def purchaseLoop (ticketData : TicketData) : List TicketInfo → String → Num → Option String
  | [], receipt, total =>
    some (receipt ++ "\n" ++ receiptSeparator ++ "\nTOTAL: $"
      ++ total.divHundredToString ++ ".00")
  | purchase :: rest, receipt, total =>
    match calculateTicketPrice ticketData purchase with
    | none => none
    | some (Value.string message) => some message
    | some (Value.number currentPrice) =>
      match receiptAppend ticketData purchase currentPrice with
      | none => none
      | some line => purchaseLoop ticketData rest (receipt ++ line) (total + currentPrice)
    | some _ => none

/-- The function `purchaseTickets`: the receipt of a sequence of purchases, or the message of
the first purchase that `calculateTicketPrice` rejects. -/
def purchaseTickets (ticketData : TicketData) (purchases : List TicketInfo) : Option String :=
  purchaseLoop ticketData purchases (receiptHeader ++ "\n" ++ receiptSeparator) 0

/-! ## Sample data -/

/-- Modelled from the spec: the table of `data/tickets.js` is not among the
sources; this sample table has the shape that the source documents, with prices
and descriptions that agree with the examples in its docstrings. -/
def exampleTicketData : TicketData where
  types := [
    ("general", ⟨"General Admission", [("child", 2000), ("adult", 3000), ("senior", 2500)]⟩),
    ("membership",
      ⟨"Membership Admission", [("child", 1500), ("adult", 2800), ("senior", 2300)]⟩)]
  extras := [
    ("movie", ⟨"Movie Access", [("child", 1000), ("adult", 1000), ("senior", 1000)]⟩),
    ("education", ⟨"Education Access", [("child", 1000), ("adult", 1200), ("senior", 1200)]⟩),
    ("terrace", ⟨"Terrace Access", [("child", 500), ("adult", 1000), ("senior", 1000)]⟩)]

/-- The sample table with one more ticket type, `vip`. -/
def vipTicketData : TicketData where
  types := exampleTicketData.types ++
    [("vip", ⟨"VIP Admission", [("child", 4000), ("adult", 6000), ("senior", 5000)]⟩)]
  extras := exampleTicketData.extras

/-! ## Notions used to state the properties -/

/-- The line and the price of a purchase, as the loop of `purchaseTickets` computes
them: `row.2` is the price that `calculateTicketPrice` returns, and the line
`row.1` is made of the capitalized entrant type, the description of the ticket
type, the price, and the description of the extras when the purchase lists some. -/
def IsRow (ticketData : TicketData) (purchase : TicketInfo) (row : String × Num) : Prop :=
  ∃ label entry descr,
    capitalize purchase.entrantType = some label ∧
    ticketData.types.lookup purchase.ticketType = some entry ∧
    getExtraDescriptions ticketData purchase = some (Value.string descr) ∧
    calculateTicketPrice ticketData purchase = some (Value.number row.2) ∧
    row.1 = label ++ " " ++ entry.description ++ ": $" ++ row.2.divHundredToString ++ ".00" ++
      if purchase.extras = [] then "" else " " ++ descr

/-- The total line of a receipt. -/
def totalLine (total : Num) : String := "TOTAL: $" ++ total.divHundredToString ++ ".00"

/-- A price table in which a price is not a whole number of dollars. -/
def halfDollarData : TicketData where
  types := [("general", ⟨"General Admission", [("child", 2000), ("adult", 2550)]⟩)]
  extras := []

/-- The extras description as the specification words it: every label is the
description of the extra followed by the word `Access`. -/
def describeExtrasWithAccess (data : TicketData) (ticketInfo : TicketInfo) : Option Value :=
  match extraDescriptions data ticketInfo.extras with
  | none => none
  | some ds =>
    some (Value.string ("(" ++ ", ".intercalate (ds.map fun d => d ++ " Access") ++ ")"))

/-- A price table in which the extra `movie` has no price for the entrant type
`senior`, which the ticket type `general` prices. -/
def seniorMovieData : TicketData where
  types := [("general", ⟨"General Admission", [("child", 2000), ("senior", 2500)]⟩),
    ("membership", ⟨"Membership Admission", [("child", 1500), ("senior", 2300)]⟩)]
  extras := [("movie", ⟨"Movie Access", [("child", 1000)]⟩),
    ("terrace", ⟨"Terrace Access", [("child", 500), ("senior", 1000)]⟩)]

/-- The price of an extra for an entrant type,
`ticketData.extras[extra].priceInCents[entrantType]`, or 0 when there is none. -/
def extraPrice (ticketData : TicketData) (entrantType extra : String) : Nat :=
  match ticketData.extras.lookup extra with
  | none => 0
  | some entry => (entry.priceInCents.lookup entrantType).getD 0

theorem Num.int_add_int (a b : Nat) : Num.int a + Num.int b = Num.int (a + b) := rfl

theorem Num.nan_add (x : Num) : Num.nan + x = Num.nan := rfl

theorem Num.add_nan (x : Num) : x + Num.nan = Num.nan := by
  cases x <;> rfl

theorem Num.zero_eq : (0 : Num) = Num.int 0 := rfl

theorem Num.zero_add (x : Num) : 0 + x = x := by
  cases x with
  | int n => rw [Num.zero_eq, Num.int_add_int, Nat.zero_add]
  | nan => rfl

theorem Num.add_zero (x : Num) : x + 0 = x := by
  cases x with
  | int n => rw [Num.zero_eq, Num.int_add_int, Nat.add_zero]
  | nan => rfl

/-- A whole number of dollars is printed without a decimal point. -/
theorem Num.divHundredToString_whole (k : Nat) :
    (Num.int (100 * k)).divHundredToString = toString k := by
  simp [Num.divHundredToString]

theorem contains_keys_iff {β : Type} (o : List (String × β)) (k : String) :
    (keys o).contains k = true ↔ ∃ v, o.lookup k = some v := by
  induction o with
  | nil => simp [keys]
  | cons kv rest ih =>
    obtain ⟨k', v'⟩ := kv
    by_cases h : k = k'
    · subst h
      simp [keys]
    · have h' : (k == k') = false := by simpa using h
      simp only [keys, List.map_cons, List.contains_cons, h', Bool.false_or,
        List.lookup_cons] at ih ⊢
      exact ih

theorem mem_keys_iff {β : Type} (o : List (String × β)) (k : String) :
    k ∈ keys o ↔ ∃ v, o.lookup k = some v := by
  rw [← contains_keys_iff]; simp

theorem isInvalidExtra_eq_false_iff (data : TicketData) (x : String) :
    isInvalidExtra data x = false ↔ x ∈ keys data.extras := by
  simp [isInvalidExtra]

theorem any_isInvalidExtra_eq_false_iff (data : TicketData) (xs : List String) :
    xs.any (isInvalidExtra data) = false ↔ ∀ x ∈ xs, x ∈ keys data.extras := by
  rw [← Bool.not_eq_true, List.any_eq_true]
  constructor
  · intro h x hx
    rw [← isInvalidExtra_eq_false_iff]
    cases hv : isInvalidExtra data x
    · rfl
    · exact absurd ⟨x, hx, hv⟩ h
  · rintro h ⟨x, hx, hv⟩
    have := (isInvalidExtra_eq_false_iff data x).2 (h x hx)
    rw [hv] at this
    exact Bool.noConfusion this

/-- When every extra is a key of `data.extras`, the `map` over the extras does not
throw and gives one description per extra. -/
theorem extraDescriptions_of_keys (data : TicketData) (xs : List String)
    (h : ∀ x ∈ xs, x ∈ keys data.extras) :
    ∃ ds, extraDescriptions data xs = some ds ∧
      List.Forall₂ (fun x d => ∃ e, data.extras.lookup x = some e ∧ d = e.description) xs ds := by
  induction xs with
  | nil => exact ⟨[], rfl, List.Forall₂.nil⟩
  | cons x rest ih =>
    obtain ⟨e, he⟩ := (mem_keys_iff _ _).1 (h x (List.mem_cons_self _ _))
    obtain ⟨ds, hds, hall⟩ := ih (fun y hy => h y (List.mem_cons_of_mem _ hy))
    exact ⟨e.description :: ds, by simp [extraDescriptions, he, hds],
      List.Forall₂.cons ⟨e, he, rfl⟩ hall⟩

/-- The outcome of `getExtraDescriptions` is decided by the validity of the extras:
`false` when one is invalid, a string that starts with a parenthesis otherwise.
It never throws. -/
theorem getExtraDescriptions_cases (data : TicketData) (ticketInfo : TicketInfo) :
    (ticketInfo.extras.any (isInvalidExtra data) = true ∧
        getExtraDescriptions data ticketInfo = some (Value.bool false)) ∨
    (ticketInfo.extras.any (isInvalidExtra data) = false ∧
        ∃ ds, extraDescriptions data ticketInfo.extras = some ds ∧
          getExtraDescriptions data ticketInfo
            = some (Value.string ("(" ++ ", ".intercalate ds ++ ")"))) := by
  cases hany : ticketInfo.extras.any (isInvalidExtra data)
  · right
    obtain ⟨ds, hds, -⟩ := extraDescriptions_of_keys data ticketInfo.extras
      ((any_isInvalidExtra_eq_false_iff _ _).1 hany)
    exact ⟨rfl, ds, hds, by simp [getExtraDescriptions, hany, hds]⟩
  · left
    exact ⟨rfl, by simp [getExtraDescriptions, hany]⟩

theorem truthy_paren (s : String) : (Value.string ("(" ++ s ++ ")")).truthy = true := by
  have h : "(" ++ s ++ ")" ≠ "" := by
    intro h
    have := congrArg String.data h
    simp at this
  simpa [Value.truthy] using h

/-- The loop over the extras, when every extra has a price for the entrant type:
it adds the prices to the running cost. -/
theorem extrasCostLoop_of_prices (ticketData : TicketData) (entrantType : String)
    (price : String → Nat) (xs : List String) (acc : Nat)
    (h : ∀ x ∈ xs, ∃ e, ticketData.extras.lookup x = some e ∧
      e.priceInCents.lookup entrantType = some (price x)) :
    extrasCostLoop ticketData entrantType xs (Num.int acc)
      = some (Num.int (acc + (xs.map price).sum)) := by
  induction xs generalizing acc with
  | nil => simp [extrasCostLoop]
  | cons x rest ih =>
    obtain ⟨e, he, hp⟩ := h x (List.mem_cons_self _ _)
    have hadd : Num.int acc + Num.ofProperty (some (price x)) = Num.int (acc + price x) := rfl
    simp only [extrasCostLoop, he, hp, hadd]
    rw [ih _ (fun y hy => h y (List.mem_cons_of_mem _ hy))]
    simp [Nat.add_assoc]

/-- The loop over the extras does not throw when every extra is a key of the
extras dictionary. -/
theorem extrasCostLoop_of_keys (ticketData : TicketData) (entrantType : String)
    (xs : List String) (acc : Num) (h : ∀ x ∈ xs, x ∈ keys ticketData.extras) :
    ∃ cost, extrasCostLoop ticketData entrantType xs acc = some cost := by
  induction xs generalizing acc with
  | nil => exact ⟨acc, rfl⟩
  | cons x rest ih =>
    obtain ⟨e, he⟩ := (mem_keys_iff _ _).1 (h x (List.mem_cons_self _ _))
    simp only [extrasCostLoop, he]
    exact ih _ (fun y hy => h y (List.mem_cons_of_mem _ hy))

/-- The guard on the length of the extras does not change the cost: the loop over
an empty list leaves the cost at 0. -/
theorem extrasCost_eq_loop (ticketData : TicketData) (ticketInfo : TicketInfo) :
    extrasCost ticketData ticketInfo
      = extrasCostLoop ticketData ticketInfo.entrantType ticketInfo.extras 0 := by
  unfold extrasCost
  cases ticketInfo.extras <;> simp [extrasCostLoop]

theorem checkTicketType_iff (ticketInfo : TicketInfo) :
    checkTicketType ticketInfo = true ↔
      ticketInfo.ticketType = "general" ∨ ticketInfo.ticketType = "membership" := by
  simp [checkTicketType]

theorem checkEntrantTypeByKeys_eq_some (tickets : TicketData) (ticketInfo : TicketInfo)
    (b : Bool) :
    checkEntrantTypeByKeys tickets ticketInfo = some b ↔
      ∃ entry, tickets.types.lookup ticketInfo.ticketType = some entry ∧
        (keys entry.priceInCents).contains ticketInfo.entrantType = b := by
  unfold checkEntrantTypeByKeys
  cases tickets.types.lookup ticketInfo.ticketType <;> simp

/-- The value of `calculateTicketPrice` once the three checks have passed. -/
theorem calculateTicketPrice_of_checks (ticketData : TicketData) (ticketInfo : TicketInfo)
    (entry : Entry)
    (hT : checkTicketType ticketInfo = true)
    (hentry : ticketData.types.lookup ticketInfo.ticketType = some entry)
    (hE : ticketInfo.entrantType ∈ keys entry.priceInCents)
    (hX : ∀ x ∈ ticketInfo.extras, x ∈ keys ticketData.extras) :
    ∃ extrasCost,
      extrasCostLoop ticketData ticketInfo.entrantType ticketInfo.extras 0 = some extrasCost ∧
      calculateTicketPrice ticketData ticketInfo = some (Value.number
        (0 + (Num.ofProperty (entry.priceInCents.lookup ticketInfo.entrantType) + extrasCost))) := by
  obtain ⟨cost, hcost⟩ :=
    extrasCostLoop_of_keys ticketData ticketInfo.entrantType ticketInfo.extras 0 hX
  refine ⟨cost, hcost, ?_⟩
  have hE' : checkEntrantTypeByKeys ticketData ticketInfo = some true :=
    (checkEntrantTypeByKeys_eq_some _ _ _).2 ⟨entry, hentry, by simpa using hE⟩
  rcases getExtraDescriptions_cases ticketData ticketInfo with ⟨hany, -⟩ | ⟨-, ds, -, hds⟩
  · rw [(any_isInvalidExtra_eq_false_iff _ _).2 hX] at hany
    exact Bool.noConfusion hany
  · simp [calculateTicketPrice, hT, hE', hds, truthy_paren, hentry, extrasCost_eq_loop, hcost]

/-! ## The price of one ticket -/

/-- The messages of the three checks differ from one another. -/
theorem entrant_message_ne_ticket_message (e t : String) :
    "Entrant type '" ++ e ++ "' cannot be found." ≠ "Ticket type '" ++ t ++ "' cannot be found." := by
  intro h
  have := congrArg String.data h
  simp at this

theorem extra_message_ne_ticket_message (e t : String) :
    "Extra type '" ++ e ++ "' cannot be found." ≠ "Ticket type '" ++ t ++ "' cannot be found." := by
  intro h
  have := congrArg String.data h
  simp at this

/-- C2 as stated fails: `vip` is a key of the table `vipTicketData`, and
`calculateTicketPrice` still answers that the ticket type cannot be found. -/
theorem ticket_type_key_rejected :
    ¬ (calculateTicketPrice vipTicketData ⟨"vip", "adult", []⟩
          = some (Value.string "Ticket type 'vip' cannot be found.")
        ↔ "vip" ∉ vipTicketData.keys) := by
  decide

/-- C2, amended: `calculateTicketPrice` returns the message
"Ticket type '<ticketType>' cannot be found." exactly when the ticket type is
neither `general` nor `membership`, the two names that `checkTicketType` lists,
whatever the keys of the price table are. -/
theorem ticket_type_message_iff (ticketData : TicketData) (ticketInfo : TicketInfo) :
    calculateTicketPrice ticketData ticketInfo
        = some (Value.string ("Ticket type '" ++ ticketInfo.ticketType ++ "' cannot be found."))
      ↔ (ticketInfo.ticketType ≠ "general" ∧ ticketInfo.ticketType ≠ "membership") := by
  rw [← not_or, ← checkTicketType_iff]
  cases hT : checkTicketType ticketInfo
  · simp [calculateTicketPrice, hT]
  · simp only [calculateTicketPrice, hT, Bool.not_true, Bool.false_eq_true, if_false,
      not_true_eq_false, iff_false]
    cases checkEntrantTypeByKeys ticketData ticketInfo with
    | none => simp
    | some b =>
      cases b with
      | false =>
        simpa using entrant_message_ne_ticket_message _ _
      | true =>
        simp only
        cases getExtraDescriptions ticketData ticketInfo with
        | none => simp
        | some v =>
          simp only
          split
          · simpa using extra_message_ne_ticket_message _ _
          · cases ticketData.types.lookup ticketInfo.ticketType with
            | none => simp
            | some entry =>
              simp only
              cases extrasCost ticketData ticketInfo <;> simp

/-- The extra that `identifyInvalidExtra` names, when some extra is invalid: the
first one in list order. -/
theorem identifyInvalidExtra_first (data : TicketData) (ticketInfo : TicketInfo)
    (h : ∃ x ∈ ticketInfo.extras, x ∉ keys data.extras) :
    ∃ before x after, ticketInfo.extras = before ++ x :: after ∧
      (∀ y ∈ before, y ∈ keys data.extras) ∧ x ∉ keys data.extras ∧
      identifyInvalidExtra data ticketInfo = Value.string x := by
  obtain ⟨x0, hx0, hbad⟩ := h
  have hany : ticketInfo.extras.any (isInvalidExtra data) = true :=
    List.any_eq_true.2 ⟨x0, hx0, by simpa [isInvalidExtra] using hbad⟩
  cases hfind : ticketInfo.extras.find? (isInvalidExtra data) with
  | none =>
    rw [List.find?_eq_none] at hfind
    exact absurd (by simpa [isInvalidExtra] using hbad) (hfind x0 hx0)
  | some x =>
    obtain ⟨hx, before, after, hsplit, hbefore⟩ := List.find?_eq_some.1 hfind
    refine ⟨before, x, after, hsplit, ?_, ?_, ?_⟩
    · intro y hy
      have := hbefore y hy
      simpa [isInvalidExtra] using this
    · simpa [isInvalidExtra] using hx
    · simp [identifyInvalidExtra, hany, hfind]

/-- C4: when the ticket type and the entrant type pass their checks and some extra
is not a key of the extras dictionary, `calculateTicketPrice` returns
"Extra type '<x>' cannot be found." for the first such extra `x` of the list: the
list is `before ++ x :: after` with every element of `before` a key. -/
theorem first_invalid_extra_reported (ticketData : TicketData) (ticketInfo : TicketInfo)
    (hT : checkTicketType ticketInfo = true)
    (hE : checkEntrantTypeByKeys ticketData ticketInfo = some true)
    (hX : ∃ x ∈ ticketInfo.extras, x ∉ keys ticketData.extras) :
    ∃ before x after, ticketInfo.extras = before ++ x :: after ∧
      (∀ y ∈ before, y ∈ keys ticketData.extras) ∧ x ∉ keys ticketData.extras ∧
      calculateTicketPrice ticketData ticketInfo
        = some (Value.string ("Extra type '" ++ x ++ "' cannot be found.")) := by
  obtain ⟨before, x, after, hsplit, hbefore, hx, hid⟩ :=
    identifyInvalidExtra_first ticketData ticketInfo hX
  refine ⟨before, x, after, hsplit, hbefore, hx, ?_⟩
  rcases getExtraDescriptions_cases ticketData ticketInfo with ⟨-, hdesc⟩ | ⟨hany, -⟩
  · simp [calculateTicketPrice, hT, hE, hdesc, hid, Value.truthy, Value.toStr]
  · obtain ⟨x0, hx0, hbad⟩ := hX
    exact absurd ((any_isInvalidExtra_eq_false_iff _ _).1 hany x0 hx0) hbad

/-- Witness for C4: of the extras `movie`, `popcorn`, `terrace`, `soda`, the first
unknown one, `popcorn`, is reported. -/
theorem first_invalid_extra_reported_witness :
    ∃ before x after, ["movie", "popcorn", "terrace", "soda"] = before ++ x :: after ∧
      (∀ y ∈ before, y ∈ keys exampleTicketData.extras) ∧ x ∉ keys exampleTicketData.extras ∧
      calculateTicketPrice exampleTicketData
          ⟨"general", "adult", ["movie", "popcorn", "terrace", "soda"]⟩
        = some (Value.string ("Extra type '" ++ x ++ "' cannot be found.")) :=
  first_invalid_extra_reported exampleTicketData
    ⟨"general", "adult", ["movie", "popcorn", "terrace", "soda"]⟩ (by decide) (by decide)
    ⟨"popcorn", by decide, by decide⟩

/-! ## Receipts -/

theorem Num.add_assoc (x y z : Num) : x + y + z = x + (y + z) := by
  cases x <;> cases y <;> cases z <;>
    simp [Num.int_add_int, Num.nan_add, Num.add_nan, Nat.add_assoc]

/-- A request for which `calculateTicketPrice` returns a number has passed the
three checks, and its ticket type has an entry in the table. -/
theorem calculateTicketPrice_number_inv (ticketData : TicketData) (ticketInfo : TicketInfo)
    (x : Num) (h : calculateTicketPrice ticketData ticketInfo = some (Value.number x)) :
    checkTicketType ticketInfo = true ∧
      ∃ entry, ticketData.types.lookup ticketInfo.ticketType = some entry ∧
        ticketInfo.entrantType ∈ keys entry.priceInCents ∧
        ∀ y ∈ ticketInfo.extras, y ∈ keys ticketData.extras := by
  cases hT : checkTicketType ticketInfo
  · simp [calculateTicketPrice, hT] at h
  · refine ⟨rfl, ?_⟩
    cases hE : checkEntrantTypeByKeys ticketData ticketInfo with
    | none => simp [calculateTicketPrice, hT, hE] at h
    | some b =>
      cases b with
      | false => simp [calculateTicketPrice, hT, hE] at h
      | true =>
        obtain ⟨entry, hentry, hkey⟩ := (checkEntrantTypeByKeys_eq_some _ _ _).1 hE
        refine ⟨entry, hentry, by simpa using hkey, ?_⟩
        rcases getExtraDescriptions_cases ticketData ticketInfo with ⟨-, hdesc⟩ | ⟨hany, -⟩
        · simp [calculateTicketPrice, hT, hE, hdesc, Value.truthy] at h
        · exact (any_isInvalidExtra_eq_false_iff _ _).1 hany

theorem capitalize_of_ne_empty (s : String) (h : s ≠ "") : ∃ label, capitalize s = some label := by
  obtain ⟨data⟩ := s
  cases data with
  | nil => exact absurd rfl h
  | cons c cs => exact ⟨_, rfl⟩

theorem capitalize_empty : capitalize "" = none := rfl

/-- The text that the loop of `purchaseTickets` appends for a purchase that
`calculateTicketPrice` prices and whose entrant type is not empty: a newline, the
capitalized entrant type, the description of the ticket type, the price, and the
description of the extras when the purchase lists some. -/
theorem receiptAppend_of_valid (ticketData : TicketData) (purchase : TicketInfo) (x : Num)
    (h : calculateTicketPrice ticketData purchase = some (Value.number x))
    (hne : purchase.entrantType ≠ "") :
    ∃ label entry descr,
      capitalize purchase.entrantType = some label ∧
      ticketData.types.lookup purchase.ticketType = some entry ∧
      getExtraDescriptions ticketData purchase = some (Value.string descr) ∧
      receiptAppend ticketData purchase x = some ("\n" ++
        (label ++ " " ++ entry.description ++ ": $" ++ x.divHundredToString ++ ".00" ++
          if purchase.extras = [] then "" else " " ++ descr)) := by
  obtain ⟨-, entry, hentry, -, hX⟩ := calculateTicketPrice_number_inv _ _ _ h
  obtain ⟨label, hlabel⟩ := capitalize_of_ne_empty _ hne
  rcases getExtraDescriptions_cases ticketData purchase with ⟨hany, -⟩ | ⟨-, ds, -, hdesc⟩
  · rw [(any_isInvalidExtra_eq_false_iff _ _).2 hX] at hany
    exact Bool.noConfusion hany
  · refine ⟨label, entry, _, hlabel, hentry, hdesc, ?_⟩
    cases hextras : purchase.extras with
    | nil => simp [receiptAppend, hlabel, hentry, hextras, String.append_assoc]
    | cons y ys =>
      simp [receiptAppend, hlabel, hentry, hextras, hdesc, Value.toStr, String.append_assoc]
      rfl

theorem intercalate_go_concat (acc sep : String) (l : List String) (x : String) :
    String.intercalate.go acc sep (l ++ [x]) = String.intercalate.go acc sep l ++ sep ++ x := by
  induction l generalizing acc with
  | nil => rfl
  | cons a rest ih => exact ih _

/-- Joining one more line: the join of a non-empty list followed by the separator
and the new line. -/
theorem intercalate_concat (sep : String) (l : List String) (x : String) (h : l ≠ []) :
    sep.intercalate (l ++ [x]) = sep.intercalate l ++ sep ++ x := by
  cases l with
  | nil => exact absurd rfl h
  | cons a rest => exact intercalate_go_concat a sep rest x

/-- The loop of `purchaseTickets` over purchases that are all priced and have a
non-empty entrant type: started with the join of the lines `done` and the running
total `total`, it returns the join of `done`, the lines of the purchases in order,
the separator and the total line, whose amount is `total` plus the prices. -/
theorem purchaseLoop_of_valid (ticketData : TicketData) (purchases : List TicketInfo)
    (hvalid : ∀ p ∈ purchases, ∃ x, calculateTicketPrice ticketData p = some (Value.number x))
    (hne : ∀ p ∈ purchases, p.entrantType ≠ "")
    (done : List String) (hdone : done ≠ []) (total : Num) :
    ∃ rows : List (String × Num), List.Forall₂ (IsRow ticketData) purchases rows ∧
      purchaseLoop ticketData purchases ("\n".intercalate done) total
        = some ("\n".intercalate (done ++ rows.map Prod.fst ++
            [receiptSeparator, totalLine (total + (rows.map Prod.snd).sum)])) := by
  induction purchases generalizing done total with
  | nil =>
    refine ⟨[], List.Forall₂.nil, ?_⟩
    have h2 : done ++ [receiptSeparator, totalLine (total + 0)]
        = (done ++ [receiptSeparator]) ++ [totalLine (total + 0)] := by simp
    simp only [purchaseLoop, List.map_nil, List.append_nil, List.sum_nil]
    rw [h2, intercalate_concat _ _ _ (by simp), intercalate_concat _ _ _ hdone, Num.add_zero]
    simp only [totalLine, String.append_assoc]
    rfl
  | cons p rest ih =>
    obtain ⟨x, hx⟩ := hvalid p (List.mem_cons_self _ _)
    obtain ⟨label, entry, descr, hlabel, hentry, hdesc, hline⟩ :=
      receiptAppend_of_valid ticketData p x hx (hne p (List.mem_cons_self _ _))
    obtain ⟨rows, hrows, hloop⟩ := ih (fun q hq => hvalid q (List.mem_cons_of_mem _ hq))
      (fun q hq => hne q (List.mem_cons_of_mem _ hq))
      (done ++ [label ++ " " ++ entry.description ++ ": $" ++ x.divHundredToString ++ ".00" ++
          if p.extras = [] then "" else " " ++ descr]) (by simp) (total + x)
    refine ⟨(label ++ " " ++ entry.description ++ ": $" ++ x.divHundredToString ++ ".00" ++
        (if p.extras = [] then "" else " " ++ descr), x) :: rows,
      List.Forall₂.cons ⟨label, entry, descr, hlabel, hentry, hdesc, hx, rfl⟩ hrows, ?_⟩
    simp only [purchaseLoop, hx, hline]
    rw [intercalate_concat _ _ _ hdone, String.append_assoc] at hloop
    rw [hloop]
    simp [Num.add_assoc]

/-- The receipt of purchases that are all priced and have a non-empty entrant type. -/
theorem purchaseTickets_of_valid (ticketData : TicketData) (purchases : List TicketInfo)
    (hvalid : ∀ p ∈ purchases, ∃ x, calculateTicketPrice ticketData p = some (Value.number x))
    (hne : ∀ p ∈ purchases, p.entrantType ≠ "") :
    ∃ rows : List (String × Num), List.Forall₂ (IsRow ticketData) purchases rows ∧
      purchaseTickets ticketData purchases
        = some ("\n".intercalate ([receiptHeader, receiptSeparator] ++ rows.map Prod.fst ++
            [receiptSeparator, totalLine (rows.map Prod.snd).sum])) := by
  obtain ⟨rows, hrows, hloop⟩ := purchaseLoop_of_valid ticketData purchases hvalid hne
    [receiptHeader, receiptSeparator] (by simp) 0
  refine ⟨rows, hrows, ?_⟩
  rw [Num.zero_add] at hloop
  exact hloop

/-- C7, the code at a price that is not a whole number of dollars: 2550 cents are
rendered as `$25.5.00`, on the line of the purchase and on the total line. -/
theorem half_dollar_receipt :
    purchaseTickets halfDollarData [⟨"general", "adult", []⟩]
      = some ("Thank you for visiting the Dinosaur Museum!\n"
          ++ "-------------------------------------------\n"
          ++ "Adult General Admission: $25.5.00\n"
          ++ "-------------------------------------------\n"
          ++ "TOTAL: $25.5.00") := by
  rfl

/-- When the loop of `purchaseTickets` returns over purchases that are all priced,
no entrant type is empty. -/
theorem entrant_ne_empty_of_purchaseLoop (ticketData : TicketData)
    (purchases : List TicketInfo)
    (hvalid : ∀ p ∈ purchases, ∃ x, calculateTicketPrice ticketData p = some (Value.number x))
    (receipt : String) (total : Num) (r : String)
    (h : purchaseLoop ticketData purchases receipt total = some r) :
    ∀ p ∈ purchases, p.entrantType ≠ "" := by
  induction purchases generalizing receipt total with
  | nil => intro p hp; cases hp
  | cons q rest ih =>
    obtain ⟨x, hx⟩ := hvalid q (List.mem_cons_self _ _)
    have hq : q.entrantType ≠ "" := by
      intro hempty
      simp [purchaseLoop, hx, receiptAppend, hempty, capitalize_empty] at h
    obtain ⟨label, entry, descr, -, -, -, hline⟩ :=
      receiptAppend_of_valid ticketData q x hx hq
    simp only [purchaseLoop, hx, hline] at h
    intro p hp
    rcases List.mem_cons.1 hp with rfl | hp
    · exact hq
    · exact ih (fun p hp => hvalid p (List.mem_cons_of_mem _ hp)) _ _ h p hp

/-- The receipt that `purchaseTickets` returns for purchases that are all priced. -/
theorem purchaseTickets_receipt (ticketData : TicketData) (purchases : List TicketInfo)
    (hvalid : ∀ p ∈ purchases, ∃ x, calculateTicketPrice ticketData p = some (Value.number x))
    (r : String) (h : purchaseTickets ticketData purchases = some r) :
    ∃ rows : List (String × Num), List.Forall₂ (IsRow ticketData) purchases rows ∧
      r = "\n".intercalate ([receiptHeader, receiptSeparator] ++ rows.map Prod.fst ++
            [receiptSeparator, totalLine (rows.map Prod.snd).sum]) := by
  have hne := entrant_ne_empty_of_purchaseLoop ticketData purchases hvalid _ _ r h
  obtain ⟨rows, hrows, hres⟩ := purchaseTickets_of_valid ticketData purchases hvalid hne
  exact ⟨rows, hrows, Option.some.inj (h.symm.trans hres)⟩

theorem ne_append_space (body descr : String) : body ≠ body ++ " " ++ descr := by
  intro h
  have := congrArg String.data h
  simp at this

/-- C9: in the receipt that `purchaseTickets` returns for purchases that are all
priced, the line of a purchase is its body (entrant label, description of the
ticket type, price) followed by a space and the description of its extras exactly
when the purchase lists extras, and is the body alone when it lists none; a
receipt is returned whenever no entrant type is empty. -/
theorem extras_suffix_iff (ticketData : TicketData) (purchases : List TicketInfo)
    (hvalid : ∀ p ∈ purchases, ∃ x, calculateTicketPrice ticketData p = some (Value.number x)) :
    ((∀ p ∈ purchases, p.entrantType ≠ "") → ∃ r, purchaseTickets ticketData purchases = some r) ∧
    ∀ r, purchaseTickets ticketData purchases = some r →
      ∃ (lines : List String) (total : String),
        r = "\n".intercalate ([receiptHeader, receiptSeparator] ++ lines ++
          [receiptSeparator, total]) ∧
        List.Forall₂ (fun purchase line => ∃ label entry x descr,
            capitalize purchase.entrantType = some label ∧
            ticketData.types.lookup purchase.ticketType = some entry ∧
            calculateTicketPrice ticketData purchase = some (Value.number x) ∧
            getExtraDescriptions ticketData purchase = some (Value.string descr) ∧
            (line = label ++ " " ++ entry.description ++ ": $" ++ x.divHundredToString
                ++ ".00" ++ " " ++ descr ↔ purchase.extras ≠ []) ∧
            (purchase.extras = [] →
              line = label ++ " " ++ entry.description ++ ": $" ++ x.divHundredToString
                ++ ".00"))
          purchases lines := by
  constructor
  · intro hne
    obtain ⟨rows, -, hres⟩ := purchaseTickets_of_valid ticketData purchases hvalid hne
    exact ⟨_, hres⟩
  · intro r hr
    obtain ⟨rows, hrows, hres⟩ := purchaseTickets_receipt ticketData purchases hvalid r hr
    refine ⟨rows.map Prod.fst, totalLine (rows.map Prod.snd).sum, hres, ?_⟩
    rw [List.forall₂_map_right_iff]
    refine hrows.imp ?_
    rintro p row ⟨label, entry, descr, hlabel, hentry, hdesc, hx, hline⟩
    refine ⟨label, entry, row.2, descr, hlabel, hentry, hx, hdesc, ?_, ?_⟩
    · by_cases hextras : p.extras = []
      · rw [hline, if_pos hextras, String.append_empty]
        simp only [hextras, ne_eq, not_true_eq_false, iff_false]
        exact ne_append_space _ _
      · rw [hline, if_neg hextras]
        exact ⟨fun _ => hextras, fun _ => (String.append_assoc _ _ _).symm⟩
    · intro hextras
      rw [hline, if_pos hextras, String.append_empty]

/-- Witness for C9: a purchase with extras and a purchase without, in one receipt. -/
theorem extras_suffix_iff_witness :
    ∃ (lines : List String) (total : String),
      ("Thank you for visiting the Dinosaur Museum!\n"
          ++ "-------------------------------------------\n"
          ++ "Adult General Admission: $40.00 (Movie Access)\n"
          ++ "Senior Membership Admission: $23.00\n"
          ++ "-------------------------------------------\n"
          ++ "TOTAL: $63.00")
        = "\n".intercalate ([receiptHeader, receiptSeparator] ++ lines ++
          [receiptSeparator, total]) ∧
      List.Forall₂ (fun purchase line => ∃ label entry x descr,
          capitalize purchase.entrantType = some label ∧
          exampleTicketData.types.lookup purchase.ticketType = some entry ∧
          calculateTicketPrice exampleTicketData purchase = some (Value.number x) ∧
          getExtraDescriptions exampleTicketData purchase = some (Value.string descr) ∧
          (line = label ++ " " ++ entry.description ++ ": $" ++ x.divHundredToString
              ++ ".00" ++ " " ++ descr ↔ purchase.extras ≠ []) ∧
          (purchase.extras = [] →
            line = label ++ " " ++ entry.description ++ ": $" ++ x.divHundredToString
              ++ ".00"))
        [⟨"general", "adult", ["movie"]⟩, ⟨"membership", "senior", []⟩] lines :=
  (extras_suffix_iff exampleTicketData
    [⟨"general", "adult", ["movie"]⟩, ⟨"membership", "senior", []⟩]
    (by
      intro p hp
      simp only [List.mem_cons, List.mem_singleton, List.not_mem_nil, or_false] at hp
      rcases hp with rfl | rfl
      · exact ⟨Num.int 4000, by decide⟩
      · exact ⟨Num.int 2300, by decide⟩)).2 _ (by rfl)

/-- C10 as stated fails: for the extras `movie` and `terrace` of the sample table,
`getExtraDescriptions` joins the descriptions as they are stored and adds no word
`Access` to them. -/
theorem access_suffix_absent :
    getExtraDescriptions exampleTicketData ⟨"general", "adult", ["movie", "terrace"]⟩
        = some (Value.string "(Movie Access, Terrace Access)") ∧
      describeExtrasWithAccess exampleTicketData ⟨"general", "adult", ["movie", "terrace"]⟩
        = some (Value.string "(Movie Access Access, Terrace Access Access)") ∧
      getExtraDescriptions exampleTicketData ⟨"general", "adult", ["movie", "terrace"]⟩
        ≠ describeExtrasWithAccess exampleTicketData
            ⟨"general", "adult", ["movie", "terrace"]⟩ := by
  decide

/-- C10, amended: when every extra of the request is a key of the extras dictionary,
`getExtraDescriptions` returns `(` followed by the labels joined by `, ` followed
by `)`, with one label per element of the list of extras, in the same order; the
label of an extra is the description stored for it, unchanged. -/
theorem getExtraDescriptions_verbatim (data : TicketData) (ticketInfo : TicketInfo)
    (h : ∀ x ∈ ticketInfo.extras, x ∈ keys data.extras) :
    ∃ labels : List String,
      List.Forall₂ (fun x label => ∃ e, data.extras.lookup x = some e ∧ label = e.description)
        ticketInfo.extras labels ∧
      getExtraDescriptions data ticketInfo
        = some (Value.string ("(" ++ ", ".intercalate labels ++ ")")) := by
  obtain ⟨ds, hds, hall⟩ := extraDescriptions_of_keys data ticketInfo.extras h
  refine ⟨ds, hall, ?_⟩
  simp [getExtraDescriptions, (any_isInvalidExtra_eq_false_iff _ _).2 h, hds]

/-- Witness for C10: an extra listed twice is described twice. -/
theorem getExtraDescriptions_verbatim_witness :
    ∃ labels : List String,
      List.Forall₂ (fun x label =>
          ∃ e, exampleTicketData.extras.lookup x = some e ∧ label = e.description)
        ["movie", "education", "movie"] labels ∧
      getExtraDescriptions exampleTicketData ⟨"general", "child", ["movie", "education", "movie"]⟩
        = some (Value.string ("(" ++ ", ".intercalate labels ++ ")")) :=
  getExtraDescriptions_verbatim exampleTicketData
    ⟨"general", "child", ["movie", "education", "movie"]⟩ (by decide)

/-! ## Further properties of the price -/

/-- C11: for a request whose ticket type is the name `extras`,
`calculateTicketPrice` returns "Ticket type 'extras' cannot be found." and so no
number: no price is computed from the dictionary of extras. -/
theorem extras_ticket_type_rejected (ticketData : TicketData) (ticketInfo : TicketInfo)
    (h : ticketInfo.ticketType = "extras") :
    calculateTicketPrice ticketData ticketInfo
        = some (Value.string "Ticket type 'extras' cannot be found.") ∧
      ∀ x, calculateTicketPrice ticketData ticketInfo ≠ some (Value.number x) := by
  have hres : calculateTicketPrice ticketData ticketInfo
      = some (Value.string "Ticket type 'extras' cannot be found.") := by
    have hT : checkTicketType ticketInfo = false := by
      rw [checkTicketType, h]; decide
    simp only [calculateTicketPrice, hT, h]
    rfl
  refine ⟨hres, ?_⟩
  intro x hx
  rw [hres] at hx
  exact Value.noConfusion (Option.some.inj hx)

/-- Witness for C11: the ticket type `extras` with an entrant type and an extra that
the sample table knows. -/
theorem extras_ticket_type_rejected_witness :
    calculateTicketPrice exampleTicketData ⟨"extras", "adult", ["movie"]⟩
        = some (Value.string "Ticket type 'extras' cannot be found.") ∧
      ∀ x, calculateTicketPrice exampleTicketData ⟨"extras", "adult", ["movie"]⟩
        ≠ some (Value.number x) :=
  extras_ticket_type_rejected exampleTicketData ⟨"extras", "adult", ["movie"]⟩ rfl

theorem extraPrice_spec (ticketData : TicketData) (entrantType extra : String)
    (h : ∃ e p, ticketData.extras.lookup extra = some e ∧
      e.priceInCents.lookup entrantType = some p) :
    ∃ e, ticketData.extras.lookup extra = some e ∧
      e.priceInCents.lookup entrantType = some (extraPrice ticketData entrantType extra) := by
  obtain ⟨e, p, he, hp⟩ := h
  exact ⟨e, he, by simp [extraPrice, he, hp]⟩

/-- C12 as stated fails: the request passes the three checks, and the result is
`NaN`, because the extra `movie` has no price for the entrant type `senior`. -/
theorem valid_request_price_nan :
    checkTicketType ⟨"general", "senior", ["movie"]⟩ = true ∧
      checkEntrantTypeByKeys seniorMovieData ⟨"general", "senior", ["movie"]⟩ = some true ∧
      "movie" ∈ keys seniorMovieData.extras ∧
      calculateTicketPrice seniorMovieData ⟨"general", "senior", ["movie"]⟩
        = some (Value.number Num.nan) := by
  decide

/-- C12, amended: for a request that passes the three checks and every listed
extra of which has a price for the entrant type, `calculateTicketPrice` returns a
natural number of cents that is at least the base price of the ticket type for
the entrant type. -/
theorem price_at_least_base (ticketData : TicketData) (ticketInfo : TicketInfo)
    (hT : checkTicketType ticketInfo = true)
    (hE : checkEntrantTypeByKeys ticketData ticketInfo = some true)
    (hprice : ∀ x ∈ ticketInfo.extras, ∃ e p, ticketData.extras.lookup x = some e ∧
      e.priceInCents.lookup ticketInfo.entrantType = some p) :
    ∃ entry base n,
      ticketData.types.lookup ticketInfo.ticketType = some entry ∧
      entry.priceInCents.lookup ticketInfo.entrantType = some base ∧
      calculateTicketPrice ticketData ticketInfo = some (Value.number (Num.int n)) ∧
      base ≤ n := by
  obtain ⟨entry, hentry, hkey⟩ := (checkEntrantTypeByKeys_eq_some _ _ _).1 hE
  obtain ⟨base, hbase⟩ := (contains_keys_iff _ _).1 hkey
  have hX : ∀ x ∈ ticketInfo.extras, x ∈ keys ticketData.extras := fun x hx => by
    obtain ⟨e, -, he, -⟩ := hprice x hx
    exact (mem_keys_iff _ _).2 ⟨e, he⟩
  obtain ⟨cost, hcost, hres⟩ := calculateTicketPrice_of_checks ticketData ticketInfo entry hT
    hentry (by simpa using hkey) hX
  have hloop := extrasCostLoop_of_prices ticketData ticketInfo.entrantType
    (extraPrice ticketData ticketInfo.entrantType) ticketInfo.extras 0
    (fun x hx => extraPrice_spec _ _ _ (hprice x hx))
  rw [Num.zero_eq, hloop] at hcost
  refine ⟨entry, base,
    base + (ticketInfo.extras.map (extraPrice ticketData ticketInfo.entrantType)).sum,
    hentry, hbase, ?_, Nat.le_add_right _ _⟩
  rw [hres, hbase, ← Option.some.inj hcost]
  simp [Num.ofProperty, Num.int_add_int, Num.zero_add]

/-- Witness for C12: `general` / `senior` with the extra `terrace` twice, where every
price exists. -/
theorem price_at_least_base_witness :
    ∃ entry base n,
      seniorMovieData.types.lookup "general" = some entry ∧
      entry.priceInCents.lookup "senior" = some base ∧
      calculateTicketPrice seniorMovieData ⟨"general", "senior", ["terrace", "terrace"]⟩
        = some (Value.number (Num.int n)) ∧
      base ≤ n :=
  price_at_least_base seniorMovieData ⟨"general", "senior", ["terrace", "terrace"]⟩
    (by decide) (by decide)
    (by
      intro x hx
      simp only [List.mem_cons, List.mem_singleton, List.not_mem_nil, or_false, or_self] at hx
      subst hx
      exact ⟨⟨"Terrace Access", [("child", 500), ("senior", 1000)]⟩, 1000,
        by decide, by decide⟩)

theorem extra_message_ne_entrant_message (x e : String) :
    "Extra type '" ++ x ++ "' cannot be found." ≠ "Entrant type '" ++ e ++ "' cannot be found." := by
  intro h
  have := congrArg String.data h
  simp at this

/-- C20: for a request without extras, `getExtraDescriptions` returns the string
`()`, which is truthy, and `identifyInvalidExtra` returns `false`; so
`calculateTicketPrice` never returns the message of the extras step for it. -/
theorem no_extras_pass (data : TicketData) (ticketInfo : TicketInfo)
    (h : ticketInfo.extras = []) :
    getExtraDescriptions data ticketInfo = some (Value.string "()") ∧
      (Value.string "()").truthy = true ∧
      identifyInvalidExtra data ticketInfo = Value.bool false ∧
      ∀ x, calculateTicketPrice data ticketInfo
        ≠ some (Value.string ("Extra type '" ++ x ++ "' cannot be found.")) := by
  have hdesc : getExtraDescriptions data ticketInfo = some (Value.string "()") := by
    simp only [getExtraDescriptions, h, List.any_nil, extraDescriptions]
    rfl
  have hid : identifyInvalidExtra data ticketInfo = Value.bool false := by
    simp [identifyInvalidExtra, h]
  refine ⟨hdesc, by decide, hid, ?_⟩
  intro x hx
  cases hT : checkTicketType ticketInfo
  · simp only [calculateTicketPrice, hT, Bool.not_false, if_true, Option.some.injEq,
      Value.string.injEq] at hx
    exact extra_message_ne_ticket_message _ _ hx.symm
  · cases hE : checkEntrantTypeByKeys data ticketInfo with
    | none => simp [calculateTicketPrice, hT, hE] at hx
    | some b =>
      cases b with
      | false =>
        simp only [calculateTicketPrice, hT, hE, Bool.not_true, Bool.false_eq_true, if_false,
          Option.some.injEq, Value.string.injEq] at hx
        exact extra_message_ne_entrant_message _ _ hx.symm
      | true =>
        have htruthy : (Value.string "()").truthy = true := by decide
        simp only [calculateTicketPrice, hT, hE, hdesc, htruthy, Bool.not_true,
          Bool.false_eq_true, if_false] at hx
        cases hl : data.types.lookup ticketInfo.ticketType with
        | none => simp [hl] at hx
        | some entry =>
          cases hc : extrasCost data ticketInfo <;> simp [hl, hc] at hx

/-- Witness for C20: a request without extras on the sample table. -/
theorem no_extras_pass_witness :
    getExtraDescriptions exampleTicketData ⟨"general", "adult", []⟩
        = some (Value.string "()") ∧
      (Value.string "()").truthy = true ∧
      identifyInvalidExtra exampleTicketData ⟨"general", "adult", []⟩ = Value.bool false ∧
      ∀ x, calculateTicketPrice exampleTicketData ⟨"general", "adult", []⟩
        ≠ some (Value.string ("Extra type '" ++ x ++ "' cannot be found.")) :=
  no_extras_pass exampleTicketData ⟨"general", "adult", []⟩ rfl

/-- C18: for every price table, `purchaseTickets` applied to no purchase returns the
header, the separator, the separator again and the line `TOTAL: $0.00`, joined by
newlines. -/
theorem purchaseTickets_nil (ticketData : TicketData) :
    purchaseTickets ticketData []
        = some ("\n".intercalate
            ["Thank you for visiting the Dinosaur Museum!",
              "-------------------------------------------",
              "-------------------------------------------",
              "TOTAL: $0.00"]) ∧
      purchaseTickets ticketData []
        = some ("Thank you for visiting the Dinosaur Museum!\n"
            ++ "-------------------------------------------\n"
            ++ "-------------------------------------------\n"
            ++ "TOTAL: $0.00") := by
  constructor <;> rfl

/-! ## Absence of runtime failures -/

end TicketCalculator
